import Mathlib

/-!
Verification of the `post` command of `toot/cli/post.py`.

The Python command is sequential glue over an HTTP API client (`api`) and a
terminal-interaction helper (`toot.utils`).  We embed it shallowly:

* Machine state is a `World` record: a clock (seconds; it advances only on
  `sleep(1)` calls, which is the only way this program spends time), plus
  counters of `get_media` fetches and `upload_media` calls performed so far.
* External collaborators are oracles passed as function arguments:
  - `server : Nat → String → Option String` gives, for the k-th `get_media`
    call overall and a media id, the `url` field of the returned record;
  - `uploadSrv : Nat → UploadedMedia` gives the record returned by the k-th
    `upload_media` call;
  - the terminal (`isatty`, piped stdin, editor session, multiline prompt)
    is a `Terminal` record of oracles.
* Every function returns a `Res α`: an `Except String α` result (a raised
  `click.ClickException` becomes `.error message`), the final `World`, and
  the ordered trace of observable effects (`Event`s: prints, network calls,
  sleeps, and the scratch-file deletion).
* Python truthiness of optional strings / optional ints is modelled by
  `truthy` / `truthyNum` (`None`, `""` and `0` are falsy).
* `datetime` values are microseconds since the Unix epoch (the code only
  ever uses UTC); `isoformat` is implemented faithfully, including the
  civil-from-days calendar conversion.
-/

/-- Python truthiness of an optional string: `None` and `""` are falsy. -/
def truthy : Option String → Bool
  | none => false
  | some s => !s.isEmpty

/-- Python truthiness of an optional integer: `None` and `0` are falsy. -/
def truthyNum : Option Nat → Bool
  | none => false
  | some n => n != 0

/-- One call to `api.upload_media`: the file together with the description and
thumbnail it was paired with (lines 211-214 of `post.py`). -/
structure UploadCall where
  fileName : String
  description : Option String
  thumbnail : Option String
deriving DecidableEq, Repr

/-- A media record as returned by `api.upload_media` / `api.get_media`:
`{id, url}`, where `url` is absent (or empty) until processing finishes. -/
structure UploadedMedia where
  id : String
  url : Option String
deriving DecidableEq, Repr

/-- Machine state: the clock (in seconds, advanced only by `sleep(1)`), the
number of `get_media` calls made so far, and the number of `upload_media`
calls made so far (the latter two index the server oracles). -/
structure World where
  time : Nat
  fetches : Nat
  uploads : Nat
deriving DecidableEq, Repr

/-- Observable effects of the command, in program order. -/
inductive Event where
  | echo (msg : String)
  | uploadMedia (call : UploadCall)
  | getMedia (id : String)
  | sleepSec (n : Nat)
  | postStatus
  | deleteTmpStatusFile
deriving DecidableEq, Repr

/-- Result of running a piece of the command: the value or the raised
exception's message, the final machine state, and the effect trace. -/
structure Res (α : Type) where
  result : Except String α
  world : World
  events : List Event
deriving Repr

deriving instance DecidableEq for Except

/-- The message of the timeout exception raised at line 254 of `post.py`. -/
def timeoutMsg (timeout : Nat) : String :=
  "Media not processed by server after " ++ toString timeout ++ " seconds. Aborting."

/-- The `while not media["url"]` loop of `_wait_until_processed`
(lines 251-255): sleep 1 second, check the shared deadline, re-fetch.

The loop is bounded in fuel: callers pass `startTime + timeout + 1 - w.time`,
and since every iteration advances the clock by exactly one second the
deadline test `time() > start_time + timeout` fires strictly before the fuel
runs out; the fuel-0 arm is unreachable from any real entry state and is
given the same result as the deadline arm. -/
def waitLoop (server : Nat → String → Option String) (mediaId : String)
    (startTime timeout fuel : Nat) (url : Option String) (w : World) : Res Unit :=
  if truthy url then ⟨.ok (), w, []⟩
  else
    let w1 : World := { w with time := w.time + 1 }
    if startTime + timeout < w1.time then
      ⟨.error (timeoutMsg timeout), w1, [.sleepSec 1]⟩
    else
      match fuel with
      | 0 => ⟨.error (timeoutMsg timeout), w1, [.sleepSec 1]⟩
      | fuel' + 1 =>
        let r := waitLoop server mediaId startTime timeout fuel'
          (server w1.fetches mediaId) { w1 with fetches := w1.fetches + 1 }
        ⟨r.result, r.world, .sleepSec 1 :: .getMedia mediaId :: r.events⟩

/-- `_wait_until_processed` (lines 246-255): return at once if the record
already has a URL; otherwise re-fetch it once and enter the polling loop. -/
def wait_until_processed (server : Nat → String → Option String)
    (media : UploadedMedia) (startTime timeout : Nat) (w : World) : Res Unit :=
  if truthy media.url then ⟨.ok (), w, []⟩
  else
    let url := server w.fetches media.id
    let w1 : World := { w with fetches := w.fetches + 1 }
    let r := waitLoop server media.id startTime timeout
      (startTime + timeout + 1 - w1.time) url w1
    ⟨r.result, r.world, .getMedia media.id :: r.events⟩

/-- The `for media in uploaded_media` loop of `_wait_until_all_processed`
(lines 242-243): wait for each record in input order; a raised exception
aborts the remaining iterations. -/
def waitAllLoop (server : Nat → String → Option String) (startTime timeout : Nat) :
    List UploadedMedia → World → Res Unit
  | [], w => ⟨.ok (), w, []⟩
  | m :: rest, w =>
    let r := wait_until_processed server m startTime timeout w
    match r.result with
    | .error e => ⟨.error e, r.world, r.events⟩
    | .ok _ =>
      let r2 := waitAllLoop server startTime timeout rest r.world
      ⟨r2.result, r2.world, r.events ++ r2.events⟩

/-- `_wait_until_all_processed` (lines 227-243): if every record already has
a URL return immediately; otherwise capture the shared start timestamp once,
print the waiting notice, and wait for each record against the shared
60-second budget. -/
def wait_until_all_processed (server : Nat → String → Option String)
    (uploaded : List UploadedMedia) (w : World) : Res Unit :=
  if uploaded.all (fun m => truthy m.url) then ⟨.ok (), w, []⟩
  else
    let startTime := w.time
    let r := waitAllLoop server startTime 60 uploaded w
    ⟨r.result, r.world, .echo "Waiting for media to finish processing..." :: r.events⟩

/-- The `for idx, file in enumerate(media)` loop of `_upload_media`
(lines 211-215), with `_do_upload` (lines 222-224) inlined: pair each file
with `descriptions[idx].strip()` and `thumbnails[idx]` when those indices
exist, print the upload notice, call the upload API, collect the returned
records in input order. -/
def uploadLoop (uploadSrv : Nat → UploadedMedia) (descs thumbs : List String) :
    Nat → List String → World → List UploadedMedia × World × List Event
  | _, [], w => ([], w, [])
  | idx, f :: rest, w =>
    let desc := if idx < descs.length then some ((descs.getD idx "").trim) else none
    let thumb := if idx < thumbs.length then some (thumbs.getD idx "") else none
    let result := uploadSrv w.uploads
    let w1 : World := { w with uploads := w.uploads + 1 }
    let r := uploadLoop uploadSrv descs thumbs (idx + 1) rest w1
    (result :: r.1, r.2.1,
      .echo ("Uploading media: " ++ f) :: .uploadMedia ⟨f, desc, thumb⟩ :: r.2.2)

/-- `_upload_media` (lines 204-219): upload every file, wait for processing,
then return the ids of the uploaded records in input order. -/
def upload_media (uploadSrv : Nat → UploadedMedia)
    (server : Nat → String → Option String)
    (media descs thumbs : List String) (w : World) : Res (List String) :=
  let u := uploadLoop uploadSrv descs thumbs 0 media w
  let r := wait_until_all_processed server u.1 u.2.1
  ⟨r.result.map (fun _ => u.1.map (fun m => m.id)), r.world, u.2.2 ++ r.events⟩

/-- Left-pad a number to two digits. -/
def pad2 (n : Nat) : String :=
  if n < 10 then "0" ++ toString n else toString n

/-- Left-pad a number to four digits. -/
def pad4 (n : Nat) : String :=
  if n < 10 then "000" ++ toString n
  else if n < 100 then "00" ++ toString n
  else if n < 1000 then "0" ++ toString n
  else toString n

/-- Left-pad a number to six digits (microsecond field of `isoformat`). -/
def pad6 (n : Nat) : String :=
  let s := toString n
  String.mk (List.replicate (6 - s.length) '0') ++ s

/-- Convert days since 1970-01-01 to a civil (year, month, day) date,
as the proleptic-Gregorian conversion used by `datetime`. -/
def civilFromDays (z : Nat) : Nat × Nat × Nat :=
  let z2 := z + 719468
  let era := z2 / 146097
  let doe := z2 % 146097
  let yoe := (doe - doe / 1460 + doe / 36524 - doe / 146096) / 365
  let y := yoe + era * 400
  let doy := doe - (365 * yoe + yoe / 4 - yoe / 100)
  let mp := (5 * doy + 2) / 153
  let d := doy - (153 * mp + 2) / 5 + 1
  let m := if mp < 10 then mp + 3 else mp - 9
  (if m ≤ 2 then y + 1 else y, m, d)

/-- `datetime.isoformat()` for a UTC datetime given as microseconds since
the Unix epoch: `YYYY-MM-DDTHH:MM:SS[.ffffff]+00:00`, the fractional part
omitted when the microsecond field is zero. -/
def isoformatUtc (micros : Nat) : String :=
  let totalSeconds := micros / 1000000
  let frac := micros % 1000000
  let days := totalSeconds / 86400
  let secOfDay := totalSeconds % 86400
  let ymd := civilFromDays days
  let base := pad4 ymd.1 ++ "-" ++ pad2 ymd.2.1 ++ "-" ++ pad2 ymd.2.2 ++ "T" ++
    pad2 (secOfDay / 3600) ++ ":" ++ pad2 (secOfDay % 3600 / 60) ++ ":" ++
    pad2 (secOfDay % 60)
  (if frac == 0 then base else base ++ "." ++ pad6 frac) ++ "+00:00"

/-- `_get_scheduled_at` (lines 193-201): a truthy absolute timestamp is
returned unchanged; else a truthy relative duration yields
`(now(UTC) + duration).replace(microsecond=0).isoformat()`; else `None`.
`nowMicros` is `datetime.now(timezone.utc)` in microseconds since epoch. -/
def get_scheduled_at (scheduled_at : Option String) (scheduled_in : Option Nat)
    (nowMicros : Nat) : Option String :=
  if truthy scheduled_at then scheduled_at
  else if truthyNum scheduled_in then
    some (isoformatUtc ((nowMicros + scheduled_in.getD 0 * 1000000) / 1000000 * 1000000))
  else none

/-- The terminal-side collaborators of `_get_status_text`: whether stdin is a
tty, the piped stdin contents, the text produced by an editor session given
the pre-seeded text, the text produced by the interactive multiline prompt,
and the `EOF_KEY` name shown in the prompt message. -/
structure Terminal where
  isatty : Bool
  stdinData : String
  editorResult : Option String → String
  multilineResult : String
  eofKey : String

/-- `_get_status_text` (lines 177-190): piped stdin (right-stripped) when no
text was given and stdin is not a tty; else, interactively, an editor session
when an editor is set, or the multiline prompt (with its notice printed) when
there is still no text and no media. -/
def get_status_text (term : Terminal) (text : Option String)
    (editor : Option String) (media : List String) : Option String × List Event :=
  let text1 := if !truthy text && !term.isatty then some term.stdinData.trimRight else text
  if term.isatty then
    if truthy editor then (some (term.editorResult text1), [])
    else if !truthy text1 && media.isEmpty then
      (some term.multilineResult,
        [.echo ("Write or paste your toot. Press " ++ term.eofKey ++ " to post it.")])
    else (text1, [])
  else (text1, [])

/-- The `api.post_status` HTTP response, as far as lines 163-172 inspect it:
the raw body text, the optional `scheduled_at` field of the parsed JSON, and
its `url` field. -/
structure Response where
  text : String
  scheduledAtField : Option String
  url : String
deriving DecidableEq, Repr

/-- The inputs of the `post` command that the embedded logic reads. -/
structure PostArgs where
  text : Option String
  media : List String
  description : List String
  thumbnail : List String
  editor : Option String
  scheduled_at : Option String
  scheduled_in : Option Nat
  json : Bool

/-- The `post` command body (lines 130-174): the editor/tty guard, the
4-attachment guard, media upload and processing wait, text resolution,
schedule resolution, the empty-post guard, the `post_status` call, result
printing, and finally `delete_tmp_status_file()`.  `reformat` models
`parse_datetime` composed with `strftime` at lines 168-169. -/
def post (term : Terminal) (uploadSrv : Nat → UploadedMedia)
    (server : Nat → String → Option String) (response : Response)
    (reformat : String → String) (args : PostArgs) (nowMicros : Nat)
    (w : World) : Res Unit :=
  if truthy args.editor && !term.isatty then
    ⟨.error "Cannot run editor if not in tty.", w, []⟩
  else if args.media.length > 4 then
    ⟨.error "Cannot attach more than 4 files.", w, []⟩
  else
    let up := upload_media uploadSrv server args.media args.description args.thumbnail w
    match up.result with
    | .error e => ⟨.error e, up.world, up.events⟩
    | .ok media_ids =>
      let st := get_status_text term args.text args.editor args.media
      let status_text := st.1
      let scheduledAt := get_scheduled_at args.scheduled_at args.scheduled_in nowMicros
      if !truthy status_text && media_ids.isEmpty then
        ⟨.error "You must specify either text or media to post.", up.world,
          up.events ++ st.2⟩
      else
        let outEv :=
          if args.json then Event.echo response.text
          else
            match response.scheduledAtField with
            | some s => Event.echo ("Toot scheduled for: " ++ reformat s)
            | none => Event.echo ("Toot posted: " ++ response.url)
        let _ := scheduledAt
        ⟨.ok (), up.world, up.events ++ st.2 ++ [.postStatus, outEv, .deleteTmpStatusFile]⟩

/-- Events a polling wait can emit: sleeps, re-fetches, and prints. -/
def waiterEv : Event → Bool
  | .sleepSec _ => true
  | .getMedia _ => true
  | .echo _ => true
  | _ => false

/-- Events that are neither the status-creation call nor the scratch-file
deletion. -/
def benignEv : Event → Bool
  | .postStatus => false
  | .deleteTmpStatusFile => false
  | _ => true

/-- Events that print to the terminal. -/
def isEchoEv : Event → Bool
  | .echo _ => true
  | _ => false

/-- Events that are network calls (upload, re-fetch, status creation). -/
def isNetworkCall : Event → Bool
  | .uploadMedia _ => true
  | .getMedia _ => true
  | .postStatus => true
  | _ => false

/-- The upload calls recorded in a trace, in order. -/
def uploadCallsOf (events : List Event) : List UploadCall :=
  events.filterMap fun e =>
    match e with
    | .uploadMedia c => some c
    | _ => none

/-- Fixture: a tty terminal whose interactive prompts produce empty text. -/
def term0 : Terminal := ⟨true, "", fun _ => "", "", "Ctrl-D"⟩

/-- Fixture: an upload API whose returned records never carry a URL. -/
def upl0 : Nat → UploadedMedia := fun k => ⟨"media" ++ toString k, none⟩

/-- Fixture: a media server that never reports a populated URL. -/
def srv0 : Nat → String → Option String := fun _ _ => none

/-- Fixture: a media server that always reports a populated URL. -/
def srv1 : Nat → String → Option String := fun _ _ => some "https://files.example.com/a.png"

/-- Fixture: a canned `post_status` response. -/
def resp0 : Response := ⟨"raw body", none, "https://example.com/@u/1"⟩

/-- Fixture: the identity reformatting oracle. -/
def refl0 : String → String := fun s => s

/-- Fixture: an invocation with no text and no media. -/
def args0 : PostArgs := ⟨none, [], [], [], none, none, none, false⟩

/-- Fixture: an invocation with five media files attached. -/
def args5 : PostArgs :=
  ⟨some "hi", ["a.png", "b.png", "c.png", "d.png", "e.png"], [], [], none, none, none, false⟩

/-- Fixture: an invocation with plain text and nothing else. -/
def argsText : PostArgs := ⟨some "hello world", [], [], [], none, none, none, false⟩

/-! ### Lemmas about the polling loop -/

theorem waitLoop_zero (server : Nat → String → Option String) (mid : String)
    (s t : Nat) (url : Option String) (w : World) :
    waitLoop server mid s t 0 url w =
      if truthy url then ⟨.ok (), w, []⟩
      else ⟨.error (timeoutMsg t), { w with time := w.time + 1 }, [.sleepSec 1]⟩ := by
  rw [waitLoop.eq_def]
  split
  · rfl
  · simp only [ite_self]

theorem waitLoop_succ (server : Nat → String → Option String) (mid : String)
    (s t f : Nat) (url : Option String) (w : World) :
    waitLoop server mid s t (f + 1) url w =
      if truthy url then ⟨.ok (), w, []⟩
      else
        let w1 : World := { w with time := w.time + 1 }
        if s + t < w1.time then ⟨.error (timeoutMsg t), w1, [.sleepSec 1]⟩
        else
          let r := waitLoop server mid s t f (server w1.fetches mid)
            { w1 with fetches := w1.fetches + 1 }
          ⟨r.result, r.world, .sleepSec 1 :: .getMedia mid :: r.events⟩ := by
  rw [waitLoop.eq_def]

theorem waitLoop_spec (server : Nat → String → Option String) (mid : String)
    (s t : Nat) : ∀ (fuel : Nat) (url : Option String) (w : World),
    w.time ≤ s + t → s + t + 1 ≤ fuel + w.time →
    ((waitLoop server mid s t fuel url w).result = .ok () ∧
      (waitLoop server mid s t fuel url w).world.time ≤ s + t) ∨
    ((waitLoop server mid s t fuel url w).result = .error (timeoutMsg t) ∧
      (waitLoop server mid s t fuel url w).world.time = s + t + 1) := by
  intro fuel
  induction fuel with
  | zero =>
    intro url w h1 h2
    omega
  | succ f ih =>
    intro url w h1 h2
    rw [waitLoop_succ]
    by_cases hu : truthy url = true
    · rw [if_pos hu]
      exact Or.inl ⟨rfl, h1⟩
    · rw [if_neg hu]
      dsimp only
      by_cases hd : s + t < w.time + 1
      · rw [if_pos hd]
        exact Or.inr ⟨rfl, by dsimp only; omega⟩
      · rw [if_neg hd]
        have h1a : w.time + 1 ≤ s + t := by omega
        have h2a : s + t + 1 ≤ f + (w.time + 1) := by omega
        have := ih (server w.fetches mid)
          { time := w.time + 1, fetches := w.fetches + 1, uploads := w.uploads } h1a h2a
        rcases this with ⟨ho, ht⟩ | ⟨he, ht⟩
        · exact Or.inl ⟨ho, ht⟩
        · exact Or.inr ⟨he, ht⟩

theorem waitLoop_never (server : Nat → String → Option String) (mid : String)
    (s t : Nat) (hs : ∀ k, truthy (server k mid) = false) :
    ∀ (fuel : Nat) (url : Option String) (w : World), truthy url = false →
    (waitLoop server mid s t fuel url w).result = .error (timeoutMsg t) := by
  intro fuel
  induction fuel with
  | zero =>
    intro url w hu
    rw [waitLoop_zero, if_neg (by simp [hu])]
  | succ f ih =>
    intro url w hu
    rw [waitLoop_succ, if_neg (by simp [hu])]
    dsimp only
    split
    · rfl
    · exact ih _ _ (hs _)

theorem waitLoop_events (server : Nat → String → Option String) (mid : String)
    (s t : Nat) : ∀ (fuel : Nat) (url : Option String) (w : World),
    (waitLoop server mid s t fuel url w).events.all waiterEv = true := by
  intro fuel
  induction fuel with
  | zero =>
    intro url w
    rw [waitLoop_zero]
    split <;> simp [waiterEv]
  | succ f ih =>
    intro url w
    rw [waitLoop_succ]
    split
    · simp
    · dsimp only
      split
      · simp [waiterEv]
      · simp only [List.all_cons, Bool.and_eq_true]
        exact ⟨rfl, rfl, ih _ _⟩

/-! ### Lemmas about the per-item and batch waiters -/

theorem wup_spec (server : Nat → String → Option String) (media : UploadedMedia)
    (s t : Nat) (w : World) (h1 : w.time ≤ s + t) :
    ((wait_until_processed server media s t w).result = .ok () ∧
      (wait_until_processed server media s t w).world.time ≤ s + t) ∨
    ((wait_until_processed server media s t w).result = .error (timeoutMsg t) ∧
      (wait_until_processed server media s t w).world.time = s + t + 1) := by
  unfold wait_until_processed
  split
  · exact Or.inl ⟨rfl, h1⟩
  · dsimp only
    have h2 : s + t + 1 ≤ (s + t + 1 - w.time) + w.time := by omega
    rcases waitLoop_spec server media.id s t (s + t + 1 - w.time)
        (server w.fetches media.id)
        { time := w.time, fetches := w.fetches + 1, uploads := w.uploads } h1 h2 with
      ⟨ho, ht⟩ | ⟨he, ht⟩
    · exact Or.inl ⟨ho, ht⟩
    · exact Or.inr ⟨he, ht⟩

theorem wup_never (server : Nat → String → Option String) (media : UploadedMedia)
    (s t : Nat) (w : World) (hu : truthy media.url = false)
    (hs : ∀ k, truthy (server k media.id) = false) :
    (wait_until_processed server media s t w).result = .error (timeoutMsg t) := by
  unfold wait_until_processed
  rw [if_neg (by simp [hu])]
  dsimp only
  exact waitLoop_never server media.id s t hs _ _ _ (hs _)

theorem wup_events (server : Nat → String → Option String) (media : UploadedMedia)
    (s t : Nat) (w : World) :
    (wait_until_processed server media s t w).events.all waiterEv = true := by
  unfold wait_until_processed
  split
  · simp
  · dsimp only
    simp only [List.all_cons, Bool.and_eq_true]
    exact ⟨rfl, waitLoop_events server media.id s t _ _ _⟩

theorem wal_spec (server : Nat → String → Option String) (s t : Nat) :
    ∀ (l : List UploadedMedia) (w : World), w.time ≤ s + t →
    ((waitAllLoop server s t l w).result = .ok () ∧
      (waitAllLoop server s t l w).world.time ≤ s + t) ∨
    ((waitAllLoop server s t l w).result = .error (timeoutMsg t) ∧
      (waitAllLoop server s t l w).world.time = s + t + 1) := by
  intro l
  induction l with
  | nil =>
    intro w h1
    exact Or.inl ⟨rfl, h1⟩
  | cons a rest ih =>
    intro w h1
    simp only [waitAllLoop]
    rcases wup_spec server a s t w h1 with ⟨ho, ht⟩ | ⟨he, ht⟩
    · rw [ho]
      dsimp only
      rcases ih _ ht with ⟨ho2, ht2⟩ | ⟨he2, ht2⟩
      · exact Or.inl ⟨ho2, ht2⟩
      · exact Or.inr ⟨he2, ht2⟩
    · rw [he]
      exact Or.inr ⟨rfl, ht⟩

theorem wal_exists_error (server : Nat → String → Option String) (s t : Nat)
    (m : UploadedMedia) (hu : truthy m.url = false)
    (hs : ∀ k, truthy (server k m.id) = false) :
    ∀ (l : List UploadedMedia) (w : World), w.time ≤ s + t → m ∈ l →
    (waitAllLoop server s t l w).result = .error (timeoutMsg t) ∧
    (waitAllLoop server s t l w).world.time = s + t + 1 := by
  intro l
  induction l with
  | nil =>
    intro w _ hm
    exact absurd hm (List.not_mem_nil m)
  | cons a rest ih =>
    intro w h1 hm
    simp only [waitAllLoop]
    rcases wup_spec server a s t w h1 with ⟨ho, ht⟩ | ⟨he, ht⟩
    · rw [ho]
      dsimp only
      rcases List.mem_cons.mp hm with heq | hmem
    -- if m is the head, its wait cannot have succeeded
      · subst heq
        have := wup_never server m s t w hu hs
        rw [ho] at this
        exact absurd this (by simp)
      · exact ih _ ht hmem
    · rw [he]
      exact ⟨rfl, ht⟩

theorem wal_events (server : Nat → String → Option String) (s t : Nat) :
    ∀ (l : List UploadedMedia) (w : World),
    (waitAllLoop server s t l w).events.all waiterEv = true := by
  intro l
  induction l with
  | nil =>
    intro w
    simp [waitAllLoop]
  | cons a rest ih =>
    intro w
    simp only [waitAllLoop]
    rcases hres : (wait_until_processed server a s t w).result with e | u
    · dsimp only
      exact wup_events server a s t w
    · dsimp only
      simp only [List.all_append, Bool.and_eq_true]
      exact ⟨wup_events server a s t w, ih _⟩

theorem waap_timeout (server : Nat → String → Option String)
    (uploaded : List UploadedMedia) (w : World) (m : UploadedMedia)
    (hm : m ∈ uploaded) (hu : truthy m.url = false)
    (hs : ∀ k, truthy (server k m.id) = false) :
    (wait_until_all_processed server uploaded w).result = .error (timeoutMsg 60) ∧
    (wait_until_all_processed server uploaded w).world.time = w.time + 61 := by
  unfold wait_until_all_processed
  split
  · next hall =>
      have := List.all_eq_true.mp hall m hm
      simp only [hu] at this
      exact absurd this (by simp)
  · dsimp only
    have h := wal_exists_error server w.time 60 m hu hs uploaded w (by omega) hm
    exact ⟨h.1, by rw [h.2]⟩

theorem waap_events (server : Nat → String → Option String)
    (uploaded : List UploadedMedia) (w : World) :
    (wait_until_all_processed server uploaded w).events.all waiterEv = true := by
  unfold wait_until_all_processed
  split
  · simp
  · dsimp only
    simp only [List.all_cons, Bool.and_eq_true]
    exact ⟨rfl, wal_events server w.time 60 uploaded w⟩

theorem waap_all_urls (server : Nat → String → Option String)
    (uploaded : List UploadedMedia) (w : World)
    (h : uploaded.all (fun m => truthy m.url) = true) :
    wait_until_all_processed server uploaded w = ⟨.ok (), w, []⟩ := by
  unfold wait_until_all_processed
  rw [if_pos h]

/-! ### Event classification and upload-phase lemmas -/

theorem all_of_imp {p q : Event → Bool} (h : ∀ e, p e = true → q e = true) :
    ∀ l : List Event, l.all p = true → l.all q = true := by
  intro l hl
  rw [List.all_eq_true] at hl ⊢
  exact fun e he => h e (hl e he)

theorem not_mem_of_all {p : Event → Bool} {l : List Event} {x : Event}
    (hl : l.all p = true) (hx : p x = false) : x ∉ l := by
  intro hmem
  rw [List.all_eq_true] at hl
  have := hl x hmem
  rw [hx] at this
  exact Bool.false_ne_true this

theorem waiterEv_benign : ∀ e, waiterEv e = true → benignEv e = true := by
  intro e
  cases e <;> simp [waiterEv, benignEv]

theorem echoEv_benign : ∀ e, isEchoEv e = true → benignEv e = true := by
  intro e
  cases e <;> simp [isEchoEv, benignEv]

theorem echoEv_not_network : ∀ e, isEchoEv e = true → isNetworkCall e = false := by
  intro e
  cases e <;> simp [isEchoEv, isNetworkCall]

theorem uploadCallsOf_eq_nil {l : List Event} (h : l.all waiterEv = true) :
    uploadCallsOf l = [] := by
  unfold uploadCallsOf
  rw [List.filterMap_eq_nil_iff]
  intro e he
  have := List.all_eq_true.mp h e he
  cases e <;> simp_all [waiterEv]

theorem uploadLoop_events (u : Nat → UploadedMedia) (descs thumbs : List String) :
    ∀ (files : List String) (idx : Nat) (w : World),
    (uploadLoop u descs thumbs idx files w).2.2.all benignEv = true := by
  intro files
  induction files with
  | nil =>
    intro idx w
    simp [uploadLoop]
  | cons f rest ih =>
    intro idx w
    simp only [uploadLoop, List.all_cons, Bool.and_eq_true]
    exact ⟨rfl, rfl, ih _ _⟩

theorem uploadCallsOf_cons_echo (m : String) (l : List Event) :
    uploadCallsOf (.echo m :: l) = uploadCallsOf l := by
  simp [uploadCallsOf, List.filterMap_cons]

theorem uploadCallsOf_cons_upload (c : UploadCall) (l : List Event) :
    uploadCallsOf (.uploadMedia c :: l) = c :: uploadCallsOf l := by
  simp [uploadCallsOf, List.filterMap_cons]

theorem uploadLoop_calls (u : Nat → UploadedMedia) (descs thumbs : List String) :
    ∀ (files : List String) (idx : Nat) (w : World),
    uploadCallsOf (uploadLoop u descs thumbs idx files w).2.2 =
      (List.range files.length).map (fun i =>
        ⟨files.getD i "",
          if idx + i < descs.length then some ((descs.getD (idx + i) "").trim) else none,
          if idx + i < thumbs.length then some (thumbs.getD (idx + i) "") else none⟩) := by
  intro files
  induction files with
  | nil =>
    intro idx w
    simp [uploadLoop, uploadCallsOf]
  | cons f rest ih =>
    intro idx w
    simp only [uploadLoop]
    rw [uploadCallsOf_cons_echo, uploadCallsOf_cons_upload, ih]
    simp [List.range_succ_eq_map, List.map_map, Function.comp, List.getD_cons_succ,
      Nat.succ_eq_add_one, Nat.add_assoc, Nat.add_comm, Nat.add_left_comm]

/-! ### Lemmas about the full command -/

theorem upload_media_events (u : Nat → UploadedMedia)
    (server : Nat → String → Option String) (media descs thumbs : List String)
    (w : World) :
    (upload_media u server media descs thumbs w).events.all benignEv = true := by
  unfold upload_media
  dsimp only
  rw [List.all_append]
  simp only [Bool.and_eq_true]
  exact ⟨uploadLoop_events u descs thumbs media 0 w,
    all_of_imp waiterEv_benign _ (waap_events server _ _)⟩

theorem upload_media_calls (u : Nat → UploadedMedia)
    (server : Nat → String → Option String) (media descs thumbs : List String)
    (w : World) :
    uploadCallsOf (upload_media u server media descs thumbs w).events =
      (List.range media.length).map (fun i =>
        ⟨media.getD i "",
          if i < descs.length then some ((descs.getD i "").trim) else none,
          if i < thumbs.length then some (thumbs.getD i "") else none⟩) := by
  unfold upload_media
  dsimp only
  unfold uploadCallsOf
  rw [List.filterMap_append]
  have h2 : (wait_until_all_processed server (uploadLoop u descs thumbs 0 media w).1
      (uploadLoop u descs thumbs 0 media w).2.1).events.all waiterEv = true :=
    waap_events server _ _
  rw [show List.filterMap _ (wait_until_all_processed server
      (uploadLoop u descs thumbs 0 media w).1
      (uploadLoop u descs thumbs 0 media w).2.1).events = [] from uploadCallsOf_eq_nil h2]
  rw [List.append_nil]
  have h1 := uploadLoop_calls u descs thumbs media 0 w
  unfold uploadCallsOf at h1
  rw [h1]
  simp

theorem gst_events (term : Terminal) (text editor : Option String)
    (media : List String) :
    (get_status_text term text editor media).2.all isEchoEv = true := by
  unfold get_status_text
  split
  · split
    · split
      · simp
      · dsimp only
        split
        · simp [isEchoEv]
        · simp
    · simp
  · split
    · split
      · simp
      · dsimp only
        split
        · simp [isEchoEv]
        · simp
    · simp

theorem post_error_benign (term : Terminal) (u : Nat → UploadedMedia)
    (server : Nat → String → Option String) (response : Response)
    (reformat : String → String) (args : PostArgs) (nowMicros : Nat) (w : World)
    (e : String)
    (h : (post term u server response reformat args nowMicros w).result = .error e) :
    (post term u server response reformat args nowMicros w).events.all benignEv = true := by
  unfold post at h ⊢
  split
  case isTrue => simp
  case isFalse h1 =>
    rw [if_neg h1] at h
    split
    case isTrue => simp
    case isFalse h2 =>
      rw [if_neg h2] at h
      dsimp only at h ⊢
      rcases hres : (upload_media u server args.media args.description args.thumbnail w).result
        with e2 | ids
      · dsimp only
        exact upload_media_events u server args.media args.description args.thumbnail w
      · rw [hres] at h
        dsimp only at h ⊢
        split
        case isTrue h3 =>
          rw [List.all_append]
          simp only [Bool.and_eq_true]
          exact ⟨upload_media_events u server args.media args.description args.thumbnail w,
            all_of_imp echoEv_benign _ (gst_events term args.text args.editor args.media)⟩
        case isFalse h3 =>
          rw [if_neg h3] at h
          simp at h

theorem upload_media_nil (u : Nat → UploadedMedia)
    (server : Nat → String → Option String) (descs thumbs : List String)
    (w : World) :
    upload_media u server [] descs thumbs w = ⟨.ok [], w, []⟩ := by
  unfold upload_media
  simp only [uploadLoop]
  rw [waap_all_urls server [] w rfl]
  rfl

/-! ### The claims -/

/-- C1, as stated, is false: on the "empty post" usage-error path the command
raises at line 143 and returns without ever reaching the
`delete_tmp_status_file()` call at line 174.  Concretely: an interactive
invocation with no text, no media and an empty multiline input fails with the
empty-post error and its trace contains no scratch-file deletion. -/
theorem post_empty_error_leaves_scratch_file :
    (post term0 upl0 srv0 resp0 refl0 args0 0 ⟨0, 0, 0⟩).result =
      .error "You must specify either text or media to post." ∧
    Event.deleteTmpStatusFile ∉ (post term0 upl0 srv0 resp0 refl0 args0 0 ⟨0, 0, 0⟩).events := by
  decide

/-- C1 (amended): the scratch file used for interactive/editor composition is
deleted (as the final action) when the command succeeds, and is NOT deleted on
any error path — in particular not after the "empty post" usage error and not
after a media-processing timeout, where the raised exception skips the
deletion at line 174. -/
theorem scratch_file_deleted_iff_success (term : Terminal)
    (u : Nat → UploadedMedia) (server : Nat → String → Option String)
    (response : Response) (reformat : String → String) (args : PostArgs)
    (nowMicros : Nat) (w : World) :
    ((post term u server response reformat args nowMicros w).result.isOk = true →
      (post term u server response reformat args nowMicros w).events.getLast? =
        some Event.deleteTmpStatusFile) ∧
    (∀ e, (post term u server response reformat args nowMicros w).result = .error e →
      Event.deleteTmpStatusFile ∉
        (post term u server response reformat args nowMicros w).events) := by
  constructor
  · intro hok
    unfold post at hok ⊢
    split at hok
    case isTrue => simp [Except.isOk, Except.toBool] at hok
    case isFalse h1 =>
      rw [if_neg h1]
      split at hok
      case isTrue => simp [Except.isOk, Except.toBool] at hok
      case isFalse h2 =>
        rw [if_neg h2]
        dsimp only at hok ⊢
        rcases hres : (upload_media u server args.media args.description args.thumbnail w).result
          with e2 | ids
        · rw [hres] at hok
          simp [Except.isOk, Except.toBool] at hok
        · rw [hres] at hok
          dsimp only at hok ⊢
          split at hok
          case isTrue => simp [Except.isOk, Except.toBool] at hok
          case isFalse h3 =>
            rw [if_neg h3]
            simp [List.getLast?_append, List.getLast?_cons_cons, Option.or]
  · intro e he
    exact not_mem_of_all
      (post_error_benign term u server response reformat args nowMicros w e he) rfl

/-- Witness for C1 (amended): a successful plain-text post ends its trace with
the scratch-file deletion. -/
theorem scratch_file_deleted_iff_success_witness :
    (post term0 upl0 srv0 resp0 refl0 argsText 0 ⟨0, 0, 0⟩).events.getLast? =
      some Event.deleteTmpStatusFile :=
  (scratch_file_deleted_iff_success term0 upl0 srv0 resp0 refl0 argsText 0
    ⟨0, 0, 0⟩).1 (by decide)

/-- C2: for a media record whose URL never becomes populated, the batch waiter
terminates with the timeout error naming the 60-second budget; the deadline is
measured from the single start timestamp captured when the batch wait begins
(the final clock reads exactly 61 seconds past it, however many records the
batch holds); and whenever the command fails, the status-creation call never
appears in its trace. -/
theorem media_timeout_shared_budget (server : Nat → String → Option String)
    (uploaded : List UploadedMedia) (w : World) (m : UploadedMedia)
    (hm : m ∈ uploaded) (hu : truthy m.url = false)
    (hs : ∀ k, truthy (server k m.id) = false) :
    (wait_until_all_processed server uploaded w).result =
      .error "Media not processed by server after 60 seconds. Aborting." ∧
    (wait_until_all_processed server uploaded w).world.time = w.time + 61 ∧
    (∀ (term : Terminal) (u : Nat → UploadedMedia) (response : Response)
      (reformat : String → String) (args : PostArgs) (nowMicros : Nat)
      (w2 : World) (e : String),
      (post term u server response reformat args nowMicros w2).result = .error e →
      Event.postStatus ∉ (post term u server response reformat args nowMicros w2).events) := by
  have h := waap_timeout server uploaded w m hm hu hs
  refine ⟨h.1, h.2, ?_⟩
  intro term u response reformat args nowMicros w2 e he
  exact not_mem_of_all
    (post_error_benign term u server response reformat args nowMicros w2 e he) rfl

/-- Witness for C2: a single never-processed record times out with the
60-second message exactly 61 clock seconds after the batch wait began. -/
theorem media_timeout_shared_budget_witness :
    (wait_until_all_processed srv0 [⟨"m1", none⟩] ⟨0, 0, 0⟩).result =
      .error "Media not processed by server after 60 seconds. Aborting." ∧
    (wait_until_all_processed srv0 [⟨"m1", none⟩] ⟨0, 0, 0⟩).world.time = 0 + 61 := by
  have h := media_timeout_shared_budget srv0 [⟨"m1", none⟩] ⟨0, 0, 0⟩ ⟨"m1", none⟩
    (by decide) (by decide) (fun _ => rfl)
  exact ⟨h.1, h.2.1⟩

/-- C3: when every uploaded record (including none at all) already carries a
populated URL, the batch waiter returns at once: the result is success, the
machine state is unchanged (no sleep, no fetch) and the trace is empty (no
network call, nothing printed). -/
theorem waiter_immediate_when_all_urls (server : Nat → String → Option String)
    (uploaded : List UploadedMedia) (w : World)
    (h : uploaded.all (fun m => truthy m.url) = true) :
    wait_until_all_processed server uploaded w = ⟨.ok (), w, []⟩ :=
  waap_all_urls server uploaded w h

/-- Witness for C3: a record with a populated URL makes the waiter a no-op. -/
theorem waiter_immediate_when_all_urls_witness :
    wait_until_all_processed srv0 [⟨"a", some "https://x"⟩] ⟨3, 1, 2⟩ =
      ⟨.ok (), ⟨3, 1, 2⟩, []⟩ :=
  waiter_immediate_when_all_urls srv0 [⟨"a", some "https://x"⟩] ⟨3, 1, 2⟩ (by decide)

/-- C4: with more than 4 media files the command fails immediately with a
user-facing error (the 4-attachment error, or the earlier editor/tty error
when that guard fires first) and its trace is empty, so no upload call — and
no other network call — is ever made. -/
theorem too_many_media_fails_before_any_call (term : Terminal)
    (u : Nat → UploadedMedia) (server : Nat → String → Option String)
    (response : Response) (reformat : String → String) (args : PostArgs)
    (nowMicros : Nat) (w : World) (h : args.media.length > 4) :
    ((post term u server response reformat args nowMicros w).result =
        .error "Cannot run editor if not in tty." ∨
      (post term u server response reformat args nowMicros w).result =
        .error "Cannot attach more than 4 files.") ∧
    (post term u server response reformat args nowMicros w).events = [] := by
  unfold post
  split
  · exact ⟨Or.inl rfl, rfl⟩
  · exact ⟨Or.inr rfl, rfl⟩

/-- Witness for C4: five attachments are rejected with an empty trace. -/
theorem too_many_media_fails_before_any_call_witness :
    ((post term0 upl0 srv0 resp0 refl0 args5 0 ⟨0, 0, 0⟩).result =
        .error "Cannot run editor if not in tty." ∨
      (post term0 upl0 srv0 resp0 refl0 args5 0 ⟨0, 0, 0⟩).result =
        .error "Cannot attach more than 4 files.") ∧
    (post term0 upl0 srv0 resp0 refl0 args5 0 ⟨0, 0, 0⟩).events = [] :=
  too_many_media_fails_before_any_call term0 upl0 srv0 resp0 refl0 args5 0
    ⟨0, 0, 0⟩ (by decide)

/-- C5: when the invocation resolves to empty status text and has no media
(hence an empty media-id list), the command fails and its trace contains no
network call whatsoever — in particular the status-creation API is never
invoked. -/
theorem empty_post_fails_before_network (term : Terminal)
    (u : Nat → UploadedMedia) (server : Nat → String → Option String)
    (response : Response) (reformat : String → String) (args : PostArgs)
    (nowMicros : Nat) (w : World) (hmedia : args.media = [])
    (htext : truthy (get_status_text term args.text args.editor args.media).1 = false) :
    (post term u server response reformat args nowMicros w).result.isOk = false ∧
    (∀ e ∈ (post term u server response reformat args nowMicros w).events,
      isNetworkCall e = false) := by
  unfold post
  split
  · exact ⟨rfl, by simp⟩
  · split
    case isTrue h2 =>
      rw [hmedia] at h2
      simp at h2
    case isFalse h2 =>
      rw [hmedia] at htext ⊢
      rw [upload_media_nil]
      dsimp only
      split
      case isTrue h3 =>
        refine ⟨rfl, ?_⟩
        intro e he
        simp only [List.nil_append] at he
        exact echoEv_not_network e
          (List.all_eq_true.mp (gst_events term args.text args.editor []) e he)
      case isFalse h3 =>
        exfalso
        apply h3
        simp [htext]

/-- Witness for C5: an interactive invocation with no text, no media and an
empty multiline input fails with no network call in its trace. -/
theorem empty_post_fails_before_network_witness :
    (post term0 upl0 srv0 resp0 refl0 args0 0 ⟨0, 0, 0⟩).result.isOk = false ∧
    (∀ e ∈ (post term0 upl0 srv0 resp0 refl0 args0 0 ⟨0, 0, 0⟩).events,
      isNetworkCall e = false) :=
  empty_post_fails_before_network term0 upl0 srv0 resp0 refl0 args0 0 ⟨0, 0, 0⟩
    (by decide) (by decide)

/-- C6: the uploader pairs the i-th media file with the i-th description
(stripped of surrounding whitespace) when the description list reaches index
i and with the i-th thumbnail when the thumbnail list reaches index i,
treating missing entries as absent; it uploads file by file in input order,
and — being a total function — can never raise an index error. -/
theorem uploader_pairs_by_index (u : Nat → UploadedMedia)
    (server : Nat → String → Option String) (media descs thumbs : List String)
    (w : World) :
    uploadCallsOf (upload_media u server media descs thumbs w).events =
      (List.range media.length).map (fun i =>
        ⟨media.getD i "",
          if i < descs.length then some ((descs.getD i "").trim) else none,
          if i < thumbs.length then some (thumbs.getD i "") else none⟩) :=
  upload_media_calls u server media descs thumbs w

/-- C7, as stated, is false: a present-but-empty `scheduled_at` is not
returned unchanged, because line 194 tests truthiness rather than presence,
so `""` falls through to the `scheduled_in` branch. -/
theorem empty_scheduled_at_is_not_returned :
    (some "" : Option String).isSome = true ∧
    get_scheduled_at (some "") (some 300) 0 ≠ some "" :=
  ⟨rfl, by decide⟩

/-- C7 (amended): for every invocation where a non-empty absolute
`scheduled_at` value is present, the resolver returns it unchanged and the
relative `scheduled_in` duration is ignored entirely, regardless of its
value. -/
theorem nonempty_scheduled_at_wins (scheduled_at : Option String)
    (scheduled_in : Option Nat) (nowMicros : Nat)
    (h : truthy scheduled_at = true) :
    get_scheduled_at scheduled_at scheduled_in nowMicros = scheduled_at := by
  unfold get_scheduled_at
  rw [if_pos h]

/-- Witness for C7 (amended). -/
theorem nonempty_scheduled_at_wins_witness :
    get_scheduled_at (some "2026-01-01T00:00:00+00:00") (some 300) 0 =
      some "2026-01-01T00:00:00+00:00" :=
  nonempty_scheduled_at_wins (some "2026-01-01T00:00:00+00:00") (some 300) 0
    (by decide)

/-- C8: with no absolute `scheduled_at` and a positive relative duration of
`d` seconds, the resolver returns the ISO-8601 rendering of the UTC instant
`now + d` seconds with the microsecond component dropped to zero. -/
theorem scheduled_in_yields_now_plus_duration (d nowMicros : Nat) (hd : 0 < d) :
    get_scheduled_at none (some d) nowMicros =
      some (isoformatUtc ((nowMicros + d * 1000000) / 1000000 * 1000000)) ∧
    (nowMicros + d * 1000000) / 1000000 * 1000000 % 1000000 = 0 := by
  constructor
  · have hne : d ≠ 0 := Nat.pos_iff_ne_zero.mp hd
    simp [get_scheduled_at, truthy, truthyNum, hne]
  · exact Nat.mul_mod_left _ _

/-- Witness for C8: five minutes after the epoch. -/
theorem scheduled_in_yields_now_plus_duration_witness :
    0 < 300 ∧
    get_scheduled_at none (some 300) 0 = some "1970-01-01T00:05:00+00:00" := by
  refine ⟨by decide, ?_⟩
  rw [(scheduled_in_yields_now_plus_duration 300 0 (by decide)).1]
  rfl

/-- C9: a record entering the per-item wait without a populated URL is
re-fetched once before any deadline check (the fetch is the first event of
the wait), and when that first re-fetch already reports a URL the wait
returns successfully with no sleep and no timeout — even when the shared
deadline has already been fully consumed — because the deadline is only
tested after a one-second sleep inside the polling loop. -/
theorem refetch_happens_before_timeout_check
    (server : Nat → String → Option String) (media : UploadedMedia)
    (startTime timeout : Nat) (w : World) (hu : truthy media.url = false) :
    (∃ rest, (wait_until_processed server media startTime timeout w).events =
      .getMedia media.id :: rest) ∧
    (truthy (server w.fetches media.id) = true →
      wait_until_processed server media startTime timeout w =
        ⟨.ok (), ⟨w.time, w.fetches + 1, w.uploads⟩, [.getMedia media.id]⟩) := by
  unfold wait_until_processed
  rw [if_neg (by simp [hu])]
  dsimp only
  refine ⟨⟨_, rfl⟩, ?_⟩
  intro hfirst
  rw [waitLoop.eq_def, if_pos hfirst]

/-- Witness for C9: with the shared deadline already consumed (clock at 100,
deadline 0 + 60), a record whose first re-fetch reports a URL still
succeeds, with a single fetch and no sleep. -/
theorem refetch_happens_before_timeout_check_witness :
    wait_until_processed srv1 ⟨"m", none⟩ 0 60 ⟨100, 0, 0⟩ =
      ⟨.ok (), ⟨100, 1, 0⟩, [.getMedia "m"]⟩ :=
  (refetch_happens_before_timeout_check srv1 ⟨"m", none⟩ 0 60 ⟨100, 0, 0⟩
    rfl).2 (by decide)

/-- C10: the resolver tests both inputs for truthiness rather than presence,
so a zero relative duration — and an empty-string absolute timestamp — are
treated as absent: the resolver returns `none`, meaning the post is
submitted immediately rather than scheduled for the current instant. -/
theorem zero_duration_treated_as_absent (nowMicros : Nat) :
    get_scheduled_at (some "") (some 0) nowMicros = none ∧
    get_scheduled_at none (some 0) nowMicros = none :=
  ⟨rfl, rfl⟩
